import Mathlib

/-!
Verification of the retrieval pipeline of the profile chatbot
(vector store, cosine similarity, CV chunker, LinkedIn record
templating, index build step).  Definitions are shallow embeddings of
the Python sources under app/: strings are Lean strings (length counts
code points, as Python len does), Python ints are modelled by Int or
Nat, and floating point numbers by exact rationals, with real square
roots for the norm computation.
-/

namespace ProfileChatbot

/-! ### Vector store: app/indexing/vector_store.py -/

/-- Embedding vectors are modelled as lists of exact rationals. -/
abbrev Embedding := List ℚ

/-- DocumentChunk dataclass (vector_store.py lines 6-10). -/
structure DocumentChunk where
  id : ℕ
  text : String
  embedding : Embedding
  deriving DecidableEq

/-- Loop body of add_documents (vector_store.py lines 18-21): for each
pair, a record is appended whose id is the CURRENT length of the chunk
list plus the running enumerate index i.  The list grows inside the
loop, which is exactly what the source does. -/
def addDocumentsAux : List DocumentChunk → ℕ → List (String × Embedding) → List DocumentChunk
  | chunks, _, [] => chunks
  | chunks, i, (t, e) :: rest =>
      addDocumentsAux (chunks ++ [⟨chunks.length + i, t, e⟩]) (i + 1) rest

/-- add_documents (vector_store.py lines 17-21).  Python zip truncates
to the shorter of the two argument lists; there is no length check in
the source. -/
def addDocuments (chunks : List DocumentChunk) (texts : List String)
    (embeddings : List Embedding) : List DocumentChunk :=
  addDocumentsAux chunks 0 (texts.zip embeddings)

/-- Comparison used by the sort in search: descending by the score
component (second component of the pair).  With this relation,
List.insertionSort is a stable descending sort, extensionally equal to
the stable sort performed by scores.sort(key, reverse=True) in the
source (vector_store.py line 31). -/
def geSnd {β : Type} {α : Type} [LinearOrder α] (p q : β × α) : Prop := q.2 ≤ p.2

instance {β : Type} {α : Type} [LinearOrder α] : DecidableRel (geSnd (β := β) (α := α)) :=
  fun p q => inferInstanceAs (Decidable (q.2 ≤ p.2))

instance {β : Type} {α : Type} [LinearOrder α] : IsTotal (β × α) geSnd :=
  ⟨fun a b => (le_total b.2 a.2).elim Or.inl Or.inr⟩

instance {β : Type} {α : Type} [LinearOrder α] : IsTrans (β × α) geSnd :=
  ⟨fun _ _ _ hab hbc => le_trans hbc hab⟩

/-- Python slice l[:k].  For nonnegative k this is the first k
elements; for negative k it is all elements but the last -k (clamped
at zero), per Python slicing semantics. -/
def pySlice {γ : Type} (l : List γ) (k : ℤ) : List γ :=
  if 0 ≤ k then l.take k.toNat else l.take (l.length - (-k).toNat)

/-- Score list built by the loop in search (vector_store.py lines
27-30): one (chunk, score) pair per stored chunk, in storage order.
The similarity function is a parameter; the source fixes it to
the cosine similarity modelled below as cosineSimilarity. -/
def scoreChunks {α : Type} (sim : Embedding → Embedding → α)
    (chunks : List DocumentChunk) (queryEmbedding : Embedding) :
    List (DocumentChunk × α) :=
  chunks.map (fun c => (c, sim queryEmbedding c.embedding))

/-- search (vector_store.py lines 26-32): score every chunk, sort
stably in descending score order, return the slice scores[:top_k]. -/
def search {α : Type} [LinearOrder α] (sim : Embedding → Embedding → α)
    (chunks : List DocumentChunk) (queryEmbedding : Embedding) (topK : ℤ) :
    List (DocumentChunk × α) :=
  pySlice ((scoreChunks sim chunks queryEmbedding).insertionSort geSnd) topK

/-- Dot product a @ b of two equal-length vectors (numpy truncates
nothing here since the store holds constant-dimension embeddings; the
zipWith model agrees with numpy on equal lengths). -/
def dotQ (a b : List ℚ) : ℚ := (List.zipWith (· * ·) a b).sum

/-- Epsilon guard 1e-10 from vector_store.py line 24, as an exact rational. -/
def epsNorm : ℚ := 1 / 10 ^ 10

/-- Cosine similarity (vector_store.py lines 23-24):
a @ b / (norm a * norm b + 1e-10), with the euclidean norm modelled by
the real square root of the rational dot product. -/
noncomputable def cosineSimilarity (a b : List ℚ) : ℝ :=
  ((dotQ a b : ℚ) : ℝ) /
    (Real.sqrt ((dotQ a a : ℚ) : ℝ) * Real.sqrt ((dotQ b b : ℚ) : ℝ) + ((epsNorm : ℚ) : ℝ))

/-! ### CV chunker: app/ingestion/cv_loader.py -/

/-- CVSection dataclass (cv_loader.py lines 35-39). -/
structure CVSection where
  title : String
  content : String
  sectionType : Option String := none

/-- Whitespace characters of Python str.strip and the regex class
backslash-s, restricted to ASCII as in the source documents. -/
def isPySpace (c : Char) : Bool :=
  c = ' ' || c = '\t' || c = '\n' || c = '\r' || c = '\x0b' || c = '\x0c'

/-- Python str.strip(): drop leading and trailing whitespace. -/
def pyStrip (s : String) : String :=
  String.mk (((s.toList.dropWhile isPySpace).reverse.dropWhile isPySpace).reverse)

/-- Python sep.join(parts). -/
def joinSep (sep : String) : List String → String
  | [] => ""
  | [x] => x
  | x :: y :: xs => x ++ sep ++ joinSep sep (y :: xs)

/-- Helper for the paragraph splitter: when the character list starts a
separator matching the regex pattern newline, whitespace-star, newline
(cv_loader.py line 307), return the length of the greedy match, namely
from the leading newline through the LAST newline of the maximal
whitespace run that follows it. -/
def blankSepLen (l : List Char) : Option ℕ :=
  match l with
  | [] => none
  | c :: rest =>
      if c = '\n' then
        let run := rest.takeWhile isPySpace
        let upToLastNl := run.reverse.dropWhile (fun d => !(d = '\n'))
        if upToLastNl.isEmpty then none else some (1 + upToLastNl.length)
      else none

/-- Fueled scanner for re.split of the blank-line pattern: accumulates
the current token (reversed) and cuts at every separator occurrence.
The fuel argument is a Lean termination device; it is always called
with more fuel than there are characters, so it never runs dry. -/
def splitBlankAux : ℕ → List Char → List Char → List (List Char)
  | 0, acc, rest => [acc.reverse ++ rest]
  | _ + 1, acc, [] => [acc.reverse]
  | fuel + 1, acc, c :: rest =>
      match blankSepLen (c :: rest) with
      | some k => acc.reverse :: splitBlankAux fuel [] ((c :: rest).drop k)
      | none => splitBlankAux fuel (c :: acc) rest

/-- Model of re.split on the blank-line pattern (cv_loader.py line 307). -/
def splitBlankRe (text : String) : List String :=
  (splitBlankAux (text.toList.length + 1) [] text.toList).map String.mk

/-- Normalize whitespace to single spaces, as textwrap does before
filling (replace_whitespace=True together with expand_tabs). -/
def normalizeWs (s : String) : String :=
  String.mk (s.toList.map (fun c => if isPySpace c then ' ' else c))

/-- Words of a text for wrapping: split on spaces, drop empties. -/
def wrapWords (s : String) : List String :=
  ((normalizeWs s).split (fun c => c = ' ')).filter (fun w => !(w = ""))

/-- Model of textwrap.wrap(text, width, break_long_words=False)
(cv_loader.py line 319): greedy fill of whole words into lines of at
most width characters, one space between words; a word longer than
width gets a line of its own rather than being broken.  The hyphen
splitting textwrap additionally performs is not modelled; the merge
theorems below never enter this branch. -/
def textwrapWrap (width : ℤ) (text : String) : List String :=
  let step : List String × String → String → List String × String := fun st w =>
    if st.2 = "" then (st.1, w)
    else if ((st.2.length : ℤ) + 1 + (w.length : ℤ)) ≤ width then (st.1, st.2 ++ " " ++ w)
    else (st.1 ++ [st.2], w)
  let st := (wrapWords text).foldl step ([], "")
  if st.2 = "" then st.1 else st.1 ++ [st.2]

/-- The private splitter of cv_loader (lines 301-322): split the text
into paragraphs at blank lines, strip each, drop empties, keep small
paragraphs whole, and word-wrap paragraphs longer than max_chars. -/
def splitTextIntoChunks (maxChars : ℤ) (text : String) : List String :=
  (splitBlankRe text).foldl
    (fun acc para =>
      let p := pyStrip para
      if p = "" then acc
      else if (p.length : ℤ) ≤ maxChars then acc ++ [p]
      else acc ++ textwrapWrap maxChars p)
    []

/-- Marked section text (cv_loader.py lines 272-273): the
section-title marker line followed by the section content. -/
def sectionBase (s : CVSection) : String :=
  ("[Section: " ++ s.title ++ "]" ++ "\n") ++ s.content

/-- Per-section chunking (cv_loader.py lines 271-280): a section whose
marked text fits within max_chars becomes one chunk, otherwise it is
split by splitTextIntoChunks. -/
def cvSectionChunks (maxChars : ℤ) (s : CVSection) : List String :=
  let base := sectionBase s
  if (base.length : ℤ) ≤ maxChars then [base] else splitTextIntoChunks maxChars base

/-- Merge loop state machine (cv_loader.py lines 283-296): the list of
flushed chunks and the running buffer, processed left to right.  The
Python truthiness test on the buffer is the test against the empty
string. -/
def mergeLoop (minChars : ℤ) : List String → List String → String → List String
  | [], merged, buffer => if buffer = "" then merged else merged ++ [buffer]
  | chunk :: rest, merged, buffer =>
      if buffer = "" then mergeLoop minChars rest merged chunk
      else if ((buffer.length : ℤ) + (chunk.length : ℤ)) < minChars then
        mergeLoop minChars rest merged (buffer ++ "\n\n" ++ chunk)
      else mergeLoop minChars rest (merged ++ [buffer]) chunk

/-- Merge pass over the chunk list (cv_loader.py lines 282-298). -/
def mergeChunks (minChars : ℤ) (chunks : List String) : List String :=
  mergeLoop minChars chunks [] ""

/-- cv_to_text_chunks (cv_loader.py lines 256-298): chunk every
section, then run the merge pass.  The CVDocument argument is
represented by its section list, the only part the source reads. -/
def cvToTextChunks (sections : List CVSection) (maxChars minChars : ℤ) : List String :=
  mergeChunks minChars
    (sections.foldl (fun acc s => acc ++ cvSectionChunks maxChars s) [])

/-- Concrete 150-character section content used as counterexample
input for the chunker. -/
def filler150 : String :=
  "abcdefghijklmnopqrstuvwxyzabcdefghijklmnopqrstuvwxyzabcdefghijklmnopqrstuvwxyzabcdefghijklmnopqrstuvwxyzabcdefghijklmnopqrstuvwxyzabcdefghijklmnopqrst"

/-- Formalization of the lossless-merge property of claim C10: the
output is obtained by partitioning the input chunk list into
consecutive non-empty groups and joining each group with a blank
line. -/
def isGroupedMerge (input output : List String) : Prop :=
  ∃ gs : List (List String),
    (∀ g ∈ gs, g ≠ []) ∧ gs.flatten = input ∧ output = gs.map (joinSep ("\n\n"))

/-! ### LinkedIn record templating: app/ingestion/linkedin_loader.py -/

/-- ProfileSummary dataclass (linkedin_loader.py lines 26-32). -/
structure ProfileSummary where
  firstName : Option String := none
  lastName : Option String := none
  headline : Option String := none
  summary : Option String := none
  location : Option String := none
  deriving DecidableEq

/-- Position dataclass (linkedin_loader.py lines 35-42). -/
structure Position where
  title : String
  company : String
  location : Option String := none
  description : Option String := none
  startDate : Option String := none
  endDate : Option String := none
  deriving DecidableEq

/-- Education dataclass (linkedin_loader.py lines 45-51). -/
structure Education where
  school : String
  degree : Option String := none
  fieldOfStudy : Option String := none
  startDate : Option String := none
  endDate : Option String := none
  deriving DecidableEq

/-- Skill dataclass (linkedin_loader.py lines 54-56). -/
structure Skill where
  name : String
  deriving DecidableEq

/-- LinkedInData dataclass (linkedin_loader.py lines 59-64).  Note it
has exactly four record collections; there are no certification or
project fields. -/
structure LinkedInData where
  profile : Option ProfileSummary
  positions : List Position
  educations : List Education
  skills : List Skill
  deriving DecidableEq

/-- Python truthiness of an optional string: None and the empty string
are falsy. -/
def optTruthy : Option String → Bool
  | none => false
  | some s => !(s = "")

/-- Python expression x or d for an optional string x and default d. -/
def pyOrD (o : Option String) (d : String) : String :=
  if optTruthy o then o.getD ("") else d

/-- Profile lines built by linkedin_data_to_text_chunks (lines
353-363): one labelled line per present field, in source order. -/
def profileLines (p : ProfileSummary) : List String :=
  (if optTruthy p.firstName || optTruthy p.lastName then
    [pyStrip (("Nom : ") ++ p.firstName.getD ("") ++ (" ") ++ p.lastName.getD (""))]
   else []) ++
  (if optTruthy p.headline then [("Titre LinkedIn : ") ++ p.headline.getD ("")] else []) ++
  (if optTruthy p.location then [("Localisation : ") ++ p.location.getD ("")] else []) ++
  (if optTruthy p.summary then [("Résumé : ") ++ p.summary.getD ("")] else [])

/-- Chunk text of one position record (linkedin_loader.py lines
369-382): mandatory header, title and company lines, then optional
location, period and description lines, joined by newlines. -/
def positionText (pos : Position) : String :=
  joinSep ("\n")
    ([("Expérience professionnelle"),
      ("Poste : ") ++ pos.title,
      ("Entreprise : ") ++ pos.company] ++
     (if optTruthy pos.location then [("Localisation : ") ++ pos.location.getD ("")] else []) ++
     (if optTruthy pos.startDate || optTruthy pos.endDate then
       [("Période : ") ++ pyOrD pos.startDate ("?") ++ (" → ") ++
          pyOrD pos.endDate ("Présent")]
      else []) ++
     (if optTruthy pos.description then [("Description : ") ++ pos.description.getD ("")] else []))

/-- Chunk text of one education record (linkedin_loader.py lines
385-397). -/
def educationText (edu : Education) : String :=
  joinSep ("\n")
    ([("Formation"),
      ("Établissement : ") ++ edu.school] ++
     (if optTruthy edu.degree then [("Diplôme : ") ++ edu.degree.getD ("")] else []) ++
     (if optTruthy edu.fieldOfStudy then
       [("Domaine d\x27étude : ") ++ edu.fieldOfStudy.getD ("")] else []) ++
     (if optTruthy edu.startDate || optTruthy edu.endDate then
       [("Période : ") ++ pyOrD edu.startDate ("?") ++ (" → ") ++ pyOrD edu.endDate ("?")]
      else []))

/-- linkedin_data_to_text_chunks (linkedin_loader.py lines 343-405):
sequentially append the profile chunk (only when at least one profile
line was produced), one chunk per position, one per education, and a
single comma-joined skills chunk when any skills exist. -/
def linkedinDataToTextChunks (data : LinkedInData) : List String :=
  let chunks : List String := []
  let chunks := match data.profile with
    | none => chunks
    | some p =>
        let pl := profileLines p
        if pl = [] then chunks
        else chunks ++ [("Profil LinkedIn") ++ ("\n") ++ joinSep ("\n") pl]
  let chunks := data.positions.foldl (fun acc pos => acc ++ [positionText pos]) chunks
  let chunks := data.educations.foldl (fun acc edu => acc ++ [educationText edu]) chunks
  if data.skills = [] then chunks
  else chunks ++ [("Compétences LinkedIn : ") ++ joinSep (", ") (data.skills.map Skill.name)]

/-! ### Build step: app/indexing/build_index.py -/

/-- Attribute names of the LinkedInData dataclass, used to model
Python attribute lookup on linkedin_data in build_knowledge_base. -/
def linkedInDataFieldNames : List String :=
  [("profile"), ("positions"), ("educations"), ("skills")]

/-- Python attribute lookup on a LinkedInData value succeeds exactly
for the declared dataclass fields; any other name raises
AttributeError. -/
def hasLinkedInAttr (name : String) : Bool := linkedInDataFieldNames.contains name

/-- Errors surfaced by the build step. -/
inductive BuildError
  | attributeError (name : String)
  | runtimeError (msg : String)
  deriving DecidableEq

/-- build_knowledge_base (build_index.py lines 36-99), after the CV
and LinkedIn loading collaborators have produced the CV chunk list and
the LinkedInData value.  The logging statements on lines 62-71 read
attributes of linkedin_data in order; reading a missing attribute
raises AttributeError at that point.  Only then are the LinkedIn
chunks computed, the two chunk lists concatenated, and the
nothing-to-index RuntimeError raised when the total is empty
(lines 73-85); the embedding call is an external collaborator and the
returned knowledge base is represented by its text list. -/
def buildKnowledgeBase (cvChunks : List String) (li : LinkedInData) :
    Except BuildError (List String) :=
  if !(hasLinkedInAttr ("profile")) then .error (.attributeError ("profile"))
  else if !(hasLinkedInAttr ("positions")) then .error (.attributeError ("positions"))
  else if !(hasLinkedInAttr ("educations")) then .error (.attributeError ("educations"))
  else if !(hasLinkedInAttr ("skills")) then .error (.attributeError ("skills"))
  else if !(hasLinkedInAttr ("certifications")) then .error (.attributeError ("certifications"))
  else if !(hasLinkedInAttr ("projects")) then .error (.attributeError ("projects"))
  else
    let allTexts := cvChunks ++ linkedinDataToTextChunks li
    if allTexts = [] then
      .error (.runtimeError ("Aucun texte à indexer. Vérifiez que le CV et l\x27export LinkedIn sont bien présents."))
    else .ok allTexts

/-! ### Helper lemmas -/

theorem addDocumentsAux_length (ps : List (String × Embedding)) :
    ∀ (chunks : List DocumentChunk) (i : ℕ),
      (addDocumentsAux chunks i ps).length = chunks.length + ps.length := by
  induction ps with
  | nil => intro chunks i; simp [addDocumentsAux]
  | cons p rest ih =>
      intro chunks i
      obtain ⟨t, e⟩ := p
      rw [addDocumentsAux, ih]
      simp
      omega

theorem filter_orderedInsert {β : Type} {α : Type} [LinearOrder α]
    (c : α) (x : β × α) (l : List (β × α)) :
    (l.orderedInsert geSnd x).filter (fun p => decide (p.2 = c)) =
      if x.2 = c then x :: l.filter (fun p => decide (p.2 = c))
      else l.filter (fun p => decide (p.2 = c)) := by
  induction l with
  | nil => by_cases h : x.2 = c <;> simp [List.orderedInsert, h]
  | cons y ys ih =>
      rw [List.orderedInsert]
      by_cases hxy : geSnd x y
      · rw [if_pos hxy]
        by_cases h : x.2 = c <;> simp [List.filter_cons, h]
      · rw [if_neg hxy]
        have hlt : x.2 < y.2 := lt_of_not_le (by simpa [geSnd] using hxy)
        by_cases h : x.2 = c
        · have hy : ¬ y.2 = c := fun hc => absurd (h.trans hc.symm) (ne_of_lt hlt)
          simp [List.filter_cons, h, hy, ih]
        · by_cases hy : y.2 = c <;> simp [List.filter_cons, h, hy, ih]

theorem filter_insertionSort {β : Type} {α : Type} [LinearOrder α]
    (c : α) (l : List (β × α)) :
    (l.insertionSort geSnd).filter (fun p => decide (p.2 = c)) =
      l.filter (fun p => decide (p.2 = c)) := by
  induction l with
  | nil => rfl
  | cons x xs ih =>
      rw [List.insertionSort, filter_orderedInsert, ih]
      by_cases h : x.2 = c <;> simp [List.filter_cons, h]

theorem pySlice_eq_take {γ : Type} (l : List γ) (k : ℤ) :
    pySlice l k = l.take (if 0 ≤ k then k.toNat else l.length - (-k).toNat) := by
  unfold pySlice
  split <;> simp_all

/-! ### Claims about the vector store -/

/-- C1 (code_bug evidence): evaluating add_documents at a two-element
batch on an empty store and then a one-element batch shows the
assigned record ids are 0, 2, 2 — neither contiguous within a batch
nor unique across batches, because the id is computed as the growing
list length plus the enumerate index. -/
theorem addDocuments_id_gaps_and_duplicates :
    (addDocuments (addDocuments [] [("a"), ("b")] [[1], [2]]) [("c")] [[3]]).map
        DocumentChunk.id = [0, 2, 2] := by
  decide

/-- C2 counterexample: calling add with two texts and one embedding
does not fail and does not leave the record count unchanged; it
silently appends a partial batch of one record (Python zip
truncation), contradicting the claimed dimension-mismatch rejection
and atomicity. -/
theorem addDocuments_mismatch_appends_partial_batch :
    (addDocuments [] [("a"), ("b")] [[(1 : ℚ)]]).length = 1 ∧
      (addDocuments [] [("a"), ("b")] [[(1 : ℚ)]]).map DocumentChunk.text = [("a")] := by
  constructor <;> decide

/-- C2 amended: add_documents performs no length validation; for any
store and any argument lists it appends exactly
min(len(texts), len(embeddings)) records. -/
theorem addDocuments_appends_min_length (chunks : List DocumentChunk)
    (texts : List String) (embeddings : List Embedding) :
    (addDocuments chunks texts embeddings).length =
      chunks.length + min texts.length embeddings.length := by
  unfold addDocuments
  rw [addDocumentsAux_length, List.length_zip]

/-- C3 counterexample: on a two-record store, search with top_k = -1
returns a non-empty result (one pair), contradicting the claim that
every top_k at most 0 yields the empty result; Python slicing
scores[:-1] drops only the last scored pair. -/
theorem search_negative_topk_returns_results :
    (search (fun a b => dotQ a b) [⟨0, ("a"), [1]⟩, ⟨1, ("b"), [0]⟩] [1] (-1)).length
      = 1 := by
  norm_num [search, scoreChunks, dotQ, pySlice, List.insertionSort, List.orderedInsert, geSnd]

/-- C3 amended: search returns exactly min(top_k, N) pairs when
top_k is nonnegative (hence the empty result for top_k = 0 or N = 0),
and for negative top_k it returns the first max(N + top_k, 0) pairs by
Python slice semantics, which need not be empty. -/
theorem search_result_count {α : Type} [LinearOrder α]
    (sim : Embedding → Embedding → α) (chunks : List DocumentChunk)
    (queryEmbedding : Embedding) (topK : ℤ) :
    (search sim chunks queryEmbedding topK).length =
      min (if 0 ≤ topK then topK.toNat else chunks.length - (-topK).toNat)
        chunks.length := by
  unfold search
  rw [pySlice_eq_take, List.length_take, List.length_insertionSort]
  simp [scoreChunks]

/-- C4: the pairs returned by search are sorted by non-increasing
score, and the sort is stable: for every score value c, the returned
pairs carrying score c are an initial segment of the scored pairs
carrying score c listed in insertion order.  This holds for every
similarity function, in particular for the cosine similarity the
source uses. -/
theorem search_sorted_and_stable {α : Type} [LinearOrder α]
    (sim : Embedding → Embedding → α) (chunks : List DocumentChunk)
    (queryEmbedding : Embedding) (topK : ℤ) :
    List.Sorted geSnd (search sim chunks queryEmbedding topK) ∧
      ∀ c : α, ∃ rest,
        (search sim chunks queryEmbedding topK).filter (fun p => decide (p.2 = c)) ++ rest
          = (scoreChunks sim chunks queryEmbedding).filter (fun p => decide (p.2 = c)) := by
  constructor
  · unfold search
    rw [pySlice_eq_take]
    exact ((List.sorted_insertionSort geSnd _).sublist (List.take_sublist _ _))
  · intro c
    unfold search
    rw [pySlice_eq_take]
    refine ⟨((((scoreChunks sim chunks queryEmbedding).insertionSort geSnd).drop
      (if 0 ≤ topK then topK.toNat else
        ((scoreChunks sim chunks queryEmbedding).insertionSort geSnd).length
          - (-topK).toNat)).filter (fun p => decide (p.2 = c))), ?_⟩
    rw [← List.filter_append, List.take_append_drop, filter_insertionSort]

theorem dotQ_self_nonneg (v : List ℚ) : 0 ≤ dotQ v v := by
  induction v with
  | nil => simp [dotQ]
  | cons x t ih =>
      have : dotQ (x :: t) (x :: t) = x * x + dotQ t t := by simp [dotQ]
      rw [this]
      exact add_nonneg (mul_self_nonneg x) ih

/-- C5 counterexample: the non-zero vector with single coordinate
1/1000000 has self-similarity 1/101, far from 1.0: the epsilon guard
dominates the tiny squared norm, so self-similarity is not maximal
within any reasonable floating-point tolerance. -/
theorem cosineSimilarity_tiny_self_not_one :
    ((1 : ℚ) / 1000000 ≠ 0) ∧
      (1 / 2 : ℝ) < |cosineSimilarity [(1 : ℚ) / 1000000] [(1 : ℚ) / 1000000] - 1| := by
  constructor
  · norm_num
  · have hdot : dotQ [(1 : ℚ) / 1000000] [(1 : ℚ) / 1000000] = 1 / 10 ^ 12 := by
      norm_num [dotQ]
    have hsq : Real.sqrt ((((1 : ℚ) / 10 ^ 12 : ℚ)) : ℝ) *
        Real.sqrt ((((1 : ℚ) / 10 ^ 12 : ℚ)) : ℝ) = (((1 : ℚ) / 10 ^ 12 : ℚ) : ℝ) :=
      Real.mul_self_sqrt (by positivity)
    unfold cosineSimilarity
    rw [hdot, hsq]
    have hval : ((((1 : ℚ) / 10 ^ 12 : ℚ)) : ℝ) /
        (((((1 : ℚ) / 10 ^ 12 : ℚ)) : ℝ) + ((epsNorm : ℚ) : ℝ)) - 1 = -(100 / 101) := by
      rw [epsNorm]
      push_cast
      norm_num
    rw [hval, abs_neg, abs_of_nonneg (by norm_num : (0 : ℝ) ≤ 100 / 101)]
    norm_num

/-- C5 amended: for every vector whose squared norm is at least 1
(for instance any vector of norm at least one, as unit-normalized
embeddings are), the self cosine similarity differs from 1 by at most
the epsilon guard 1e-10; tiny non-zero vectors are excluded, as the
counterexample shows they must be. -/
theorem cosineSimilarity_self_near_one (v : List ℚ) (h : 1 ≤ dotQ v v) :
    |cosineSimilarity v v - 1| ≤ ((epsNorm : ℚ) : ℝ) := by
  have hs1 : (1 : ℝ) ≤ ((dotQ v v : ℚ) : ℝ) := by exact_mod_cast h
  have hs0 : (0 : ℝ) ≤ ((dotQ v v : ℚ) : ℝ) := le_trans zero_le_one hs1
  have hsqrt : Real.sqrt ((dotQ v v : ℚ) : ℝ) * Real.sqrt ((dotQ v v : ℚ) : ℝ)
      = ((dotQ v v : ℚ) : ℝ) := Real.mul_self_sqrt hs0
  have heps : (0 : ℝ) < ((epsNorm : ℚ) : ℝ) := by norm_num [epsNorm]
  unfold cosineSimilarity
  rw [hsqrt]
  have hden : (0 : ℝ) < ((dotQ v v : ℚ) : ℝ) + ((epsNorm : ℚ) : ℝ) := by linarith
  have hne : ((dotQ v v : ℚ) : ℝ) + ((epsNorm : ℚ) : ℝ) ≠ 0 := ne_of_gt hden
  have hdiff : ((dotQ v v : ℚ) : ℝ) / (((dotQ v v : ℚ) : ℝ) + ((epsNorm : ℚ) : ℝ)) - 1
      = -(((epsNorm : ℚ) : ℝ) / (((dotQ v v : ℚ) : ℝ) + ((epsNorm : ℚ) : ℝ))) := by
    field_simp
  rw [hdiff, abs_neg, abs_of_nonneg (div_nonneg heps.le hden.le)]
  exact div_le_self heps.le (by linarith)

/-- C5 witness: the unit vector satisfies the squared-norm hypothesis
and its self-similarity is within 1e-10 of 1. -/
theorem cosineSimilarity_self_near_one_unit :
    |cosineSimilarity [(1 : ℚ)] [(1 : ℚ)] - 1| ≤ ((epsNorm : ℚ) : ℝ) :=
  cosineSimilarity_self_near_one [(1 : ℚ)] (by norm_num [dotQ])

/-! ### Merge pass lemmas -/

theorem str_length_eq_zero_iff (s : String) : s.length = 0 ↔ s = "" := by
  cases s with
  | mk data =>
      simp [String.length, String.ext_iff, List.length_eq_zero]

theorem append_blank_ne_empty (a b : String) : a ++ "\n\n" ++ b ≠ "" := by
  intro h
  have hlen := congrArg String.length h
  simp [String.length_append] at hlen
  exact absurd hlen.1.2 (by decide)

theorem mergeLoop_length (minChars : ℤ) (l : List String) :
    ∀ (merged : List String) (buffer : String),
      (mergeLoop minChars l merged buffer).length ≤
        merged.length + (if buffer = "" then 0 else 1) + l.length := by
  induction l with
  | nil =>
      intro merged buffer
      rw [mergeLoop]
      split <;> simp
  | cons c rest ih =>
      intro merged buffer
      rw [mergeLoop]
      split_ifs with h1 h2
      · refine le_trans (ih merged c) ?_
        simp only [List.length_cons]
        split_ifs <;> omega
      · refine le_trans (ih merged (buffer ++ "\n\n" ++ c)) ?_
        simp only [List.length_cons]
        split_ifs with h3
        · exact absurd h3 (append_blank_ne_empty buffer c)
        · omega
      · refine le_trans (ih (merged ++ [buffer]) c) ?_
        simp only [List.length_cons, List.length_append, List.length_nil]
        split_ifs <;> omega

theorem mergeLoop_chain (minChars : ℤ) (l : List String) :
    ∀ (merged : List String) (buffer : String),
      List.Chain' (fun a b => minChars ≤ (a.length : ℤ) + (b.length : ℤ)) merged →
      (∀ m, merged.getLast? = some m → minChars ≤ (m.length : ℤ) + (buffer.length : ℤ)) →
      List.Chain' (fun a b => minChars ≤ (a.length : ℤ) + (b.length : ℤ))
        (mergeLoop minChars l merged buffer) := by
  induction l with
  | nil =>
      intro merged buffer hm hlast
      rw [mergeLoop]
      split_ifs with h
      · exact hm
      · refine List.chain'_append.mpr ⟨hm, List.chain'_singleton _, ?_⟩
        intro x hx y hy
        simp at hy
        subst hy
        exact hlast x (Option.mem_def.mp hx)
  | cons c rest ih =>
      intro merged buffer hm hlast
      rw [mergeLoop]
      split_ifs with h1 h2
      · refine ih merged c hm ?_
        intro m hm2
        have h3 := hlast m hm2
        rw [h1] at h3
        simp at h3
        have : (0 : ℤ) ≤ (c.length : ℤ) := Int.natCast_nonneg _
        omega
      · refine ih merged (buffer ++ "\n\n" ++ c) hm ?_
        intro m hm2
        have h3 := hlast m hm2
        have h2len : ("\n\n" : String).length = 2 := by decide
        have hlen : ((buffer ++ "\n\n" ++ c).length : ℤ) =
            (buffer.length : ℤ) + 2 + (c.length : ℤ) := by
          simp [String.length_append, h2len]
        rw [hlen]
        have : (0 : ℤ) ≤ (c.length : ℤ) := Int.natCast_nonneg _
        omega
      · refine ih (merged ++ [buffer]) c ?_ ?_
        · refine List.chain'_append.mpr ⟨hm, List.chain'_singleton _, ?_⟩
          intro x hx y hy
          simp at hy
          subst hy
          exact hlast x (Option.mem_def.mp hx)
        · intro m hm2
          rw [List.getLast?_concat] at hm2
          injection hm2 with hm2
          subst hm2
          omega

theorem joinSep_concat (sep c : String) :
    ∀ (g : List String), g ≠ [] → joinSep sep (g ++ [c]) = joinSep sep g ++ sep ++ c := by
  intro g
  induction g with
  | nil => intro h; exact absurd rfl h
  | cons x t ih =>
      intro _
      cases t with
      | nil => simp [joinSep]
      | cons y u =>
          have hstep : joinSep sep ((x :: y :: u) ++ [c]) =
              x ++ sep ++ joinSep sep ((y :: u) ++ [c]) := by
            simp [joinSep]
          rw [hstep, ih (by simp)]
          simp [joinSep, String.append_assoc]

theorem joinSep_ne_empty (sep : String) :
    ∀ (g : List String), g ≠ [] → (∀ c ∈ g, c ≠ "") → joinSep sep g ≠ "" := by
  intro g
  cases g with
  | nil => intro h; exact absurd rfl h
  | cons x t =>
      intro _ hc
      cases t with
      | nil => simpa [joinSep] using hc x (by simp)
      | cons y u =>
          intro h
          have hx : x ≠ "" := hc x (by simp)
          have hxlen : x.length ≠ 0 := fun h0 => hx ((str_length_eq_zero_iff x).mp h0)
          have hlen := congrArg String.length h
          simp [joinSep, String.length_append] at hlen
          omega

theorem mergeLoop_grouped (minChars : ℤ) :
    ∀ (l : List String), (∀ c ∈ l, c ≠ "") →
      ∀ (gsDone : List (List String)) (gCur : List String),
        (∀ g ∈ gsDone, g ≠ []) →
        (∀ c ∈ gCur, c ≠ "") →
        ∃ gs : List (List String),
          (∀ g ∈ gs, g ≠ []) ∧
          gs.flatten = gsDone.flatten ++ gCur ++ l ∧
          mergeLoop minChars l (gsDone.map (joinSep ("\n\n"))) (joinSep ("\n\n") gCur)
            = gs.map (joinSep ("\n\n")) := by
  intro l
  induction l with
  | nil =>
      intro _ gsDone gCur hgs hcur
      rw [mergeLoop]
      cases gCur with
      | nil =>
          refine ⟨gsDone, hgs, by simp, ?_⟩
          simp [joinSep]
      | cons c0 ct =>
          have hne : joinSep ("\n\n") (c0 :: ct) ≠ "" :=
            joinSep_ne_empty _ _ (by simp) hcur
          rw [if_neg hne]
          refine ⟨gsDone ++ [c0 :: ct], ?_, by simp, by simp⟩
          intro g hg
          rcases List.mem_append.mp hg with hg | hg
          · exact hgs g hg
          · simp at hg
            subst hg
            simp
  | cons c rest ih =>
      intro hl gsDone gCur hgs hcur
      have hc : c ≠ "" := hl c (by simp)
      have hrest : ∀ x ∈ rest, x ≠ "" := fun x hx => hl x (by simp [hx])
      rw [mergeLoop]
      cases gCur with
      | nil =>
          rw [if_pos (by simp [joinSep])]
          obtain ⟨gs, h1, h2, h3⟩ := ih hrest gsDone [c] hgs
            (by intro x hx; simp at hx; subst hx; exact hc)
          refine ⟨gs, h1, ?_, ?_⟩
          · rw [h2]
            simp
          · simpa [joinSep] using h3
      | cons g0 gt =>
          have hbuf : joinSep ("\n\n") (g0 :: gt) ≠ "" :=
            joinSep_ne_empty _ _ (by simp) hcur
          rw [if_neg hbuf]
          split_ifs with hlen
          · have hgrow : ∀ x ∈ (g0 :: gt) ++ [c], x ≠ "" := by
              intro x hx
              rcases List.mem_append.mp hx with hx | hx
              · exact hcur x hx
              · simp at hx
                subst hx
                exact hc
            obtain ⟨gs, h1, h2, h3⟩ := ih hrest gsDone ((g0 :: gt) ++ [c]) hgs hgrow
            refine ⟨gs, h1, ?_, ?_⟩
            · rw [h2]
              simp
            · rw [joinSep_concat _ _ _ (by simp)] at h3
              exact h3
          · have hflush : ∀ g ∈ gsDone ++ [g0 :: gt], g ≠ [] := by
              intro g hg
              rcases List.mem_append.mp hg with hg | hg
              · exact hgs g hg
              · simp at hg
                subst hg
                simp
            obtain ⟨gs, h1, h2, h3⟩ := ih hrest (gsDone ++ [g0 :: gt]) [c] hflush
              (by intro x hx; simp at hx; subst hx; exact hc)
            refine ⟨gs, h1, ?_, ?_⟩
            · rw [h2]
              simp
            · simpa [joinSep, List.map_append] using h3

/-! ### Claims about the merge pass -/

/-- C6: the merge pass never increases the number of chunks, and every
two adjacent output chunks have combined length at least min_chars
(proved for all adjacent pairs, which subsumes the claimed exception
for the final buffer chunk). -/
theorem mergeChunks_count_and_adjacent (minChars : ℤ) (chunks : List String) :
    (mergeChunks minChars chunks).length ≤ chunks.length ∧
      List.Chain' (fun a b => minChars ≤ (a.length : ℤ) + (b.length : ℤ))
        (mergeChunks minChars chunks) := by
  constructor
  · have h := mergeLoop_length minChars chunks [] ""
    simpa [mergeChunks] using h
  · exact mergeLoop_chain minChars chunks [] "" List.chain'_nil (by intro m hm; simp at hm)

/-- C10 counterexample: an input consisting of one empty-string chunk
is dropped entirely by the merge pass (the Python truthiness tests
skip it), so the output is not a blank-line-joined partition of the
input and the input chunk does not survive into the output. -/
theorem mergeChunks_empty_chunk_loses_text :
    mergeChunks 200 [("")] = [] ∧ ¬ isGroupedMerge [("")] (mergeChunks 200 [("")]) := by
  have h0 : mergeChunks 200 [("")] = [] := by decide
  refine ⟨h0, ?_⟩
  rw [h0]
  rintro ⟨gs, _, hflat, hmap⟩
  have hnil : gs = [] := List.map_eq_nil_iff.mp hmap.symm
  subst hnil
  simp at hflat

/-- C10 amended: provided every input chunk is non-empty (which the
per-section chunker guarantees, since each chunk carries at least its
section marker), the merge pass loses no text: the output partitions
the input into consecutive groups, each joined by a blank line, so
every input chunk appears verbatim, exactly once and in order. -/
theorem mergeChunks_lossless (minChars : ℤ) (chunks : List String)
    (h : ∀ c ∈ chunks, c ≠ "") :
    isGroupedMerge chunks (mergeChunks minChars chunks) := by
  obtain ⟨gs, h1, h2, h3⟩ := mergeLoop_grouped minChars chunks h [] [] (by simp) (by simp)
  refine ⟨gs, h1, by simpa using h2, ?_⟩
  have hstart : mergeChunks minChars chunks =
      mergeLoop minChars chunks (List.map (joinSep ("\n\n")) []) (joinSep ("\n\n") []) := by
    simp [mergeChunks, joinSep]
  rw [hstart, h3]

/-- C10 witness: a concrete two-chunk input is partitioned losslessly
by the merge pass. -/
theorem mergeChunks_lossless_pair :
    isGroupedMerge [("ab"), ("cd")] (mergeChunks 200 [("ab"), ("cd")]) :=
  mergeChunks_lossless 200 [("ab"), ("cd")] (by decide)

/-! ### CV chunker claims -/

theorem sectionBase_ne_empty (title content : String) :
    sectionBase ⟨title, content, none⟩ ≠ "" := by
  intro h
  have hlen := congrArg String.length h
  have h10 : ("[Section: " : String).length = 10 := by decide
  simp [sectionBase, String.length_append, h10] at hlen

theorem mergeChunks_singleton (minChars : ℤ) (c : String) (hc : c ≠ "") :
    mergeChunks minChars [c] = [c] := by
  unfold mergeChunks
  rw [mergeLoop, if_pos rfl, mergeLoop, if_neg hc]
  simp

set_option maxRecDepth 80000 in
/-- C7 counterexample: a two-section document whose whole text (each
section content, each marked section text, and the combined content)
is far below max_chars = 800 still yields two chunks, not one: each
section is chunked separately and the merge pass with the default
min_chars = 200 flushes the first section once the combined length
reaches 200. -/
theorem cvToTextChunks_two_sections_two_chunks :
    ((sectionBase ⟨("A"), filler150, none⟩).length : ℤ) ≤ 800 ∧
    ((sectionBase ⟨("B"), filler150, none⟩).length : ℤ) ≤ 800 ∧
    ((filler150.length : ℤ) + (filler150.length : ℤ) ≤ 800) ∧
    (cvToTextChunks [⟨("A"), filler150, none⟩, ⟨("B"), filler150, none⟩] 800 200).length
      = 2 := by
  refine ⟨by decide, by decide, by decide, by decide⟩

/-- C7 amended: for every max_chars and min_chars and every document
consisting of a single section whose MARKED text (the section-title
marker line plus the content) has length at most max_chars, chunking
yields exactly one chunk — the marked text itself — and that chunk
contains the section content verbatim as a substring.  The original
universal claim fails for multi-section documents and for documents
whose text fits max_chars only without the added marker. -/
theorem cvToTextChunks_single_small_section (title content : String)
    (maxChars minChars : ℤ)
    (h : ((sectionBase ⟨title, content, none⟩).length : ℤ) ≤ maxChars) :
    cvToTextChunks [⟨title, content, none⟩] maxChars minChars
        = [sectionBase ⟨title, content, none⟩] ∧
      ∃ pre, sectionBase ⟨title, content, none⟩ = pre ++ content := by
  constructor
  · have hbase : cvSectionChunks maxChars ⟨title, content, none⟩
        = [sectionBase ⟨title, content, none⟩] := by
      unfold cvSectionChunks
      rw [if_pos h]
    unfold cvToTextChunks
    have hfold : [(⟨title, content, none⟩ : CVSection)].foldl
        (fun acc s => acc ++ cvSectionChunks maxChars s) []
          = [sectionBase ⟨title, content, none⟩] := by
      simp [hbase]
    rw [hfold, mergeChunks_singleton _ _ (sectionBase_ne_empty title content)]
  · exact ⟨("[Section: ") ++ title ++ ("]") ++ ("\n"), rfl⟩

/-- C7 witness: a small concrete skills section indeed becomes one
chunk containing its content. -/
theorem cvToTextChunks_single_small_section_spot :
    cvToTextChunks [⟨("Skills"), ("Python, SQL"), none⟩] 800 200
        = [sectionBase ⟨("Skills"), ("Python, SQL"), none⟩] ∧
      ∃ pre, sectionBase ⟨("Skills"), ("Python, SQL"), none⟩ = pre ++ ("Python, SQL") :=
  cvToTextChunks_single_small_section ("Skills") ("Python, SQL") 800 200 (by decide)

/-! ### LinkedIn templating claims -/

theorem foldl_append_map {γ δ : Type} (f : γ → δ) :
    ∀ (l : List γ) (init : List δ),
      l.foldl (fun acc x => acc ++ [f x]) init = init ++ l.map f := by
  intro l
  induction l with
  | nil => intro init; simp
  | cons x t ih => intro init; simp [List.foldl, ih]

/-- C8 counterexample: a LinkedInData value holding one profile record
with no present fields produces no chunk at all, contradicting the
claimed one self-contained chunk per record. -/
theorem linkedinChunks_profile_without_fields_yields_nothing :
    linkedinDataToTextChunks ⟨some ⟨none, none, none, none, none⟩, [], [], []⟩ = [] := by
  decide

/-- C8 amended: the conversion handles the four record kinds of the
data model (profile summary, position, education, skill list; the
dataclass has no certification or project records).  Every position
and every education record yields exactly one chunk and the skills
collapse into one comma-joined chunk placed last; the profile yields
one chunk exactly when at least one profile line is present; and
absent optional fields are omitted entirely, as the minimal position
and education chunks show. -/
theorem linkedinChunks_templating (data : LinkedInData) :
    ((linkedinDataToTextChunks data).length =
      (match data.profile with
       | none => 0
       | some p => if profileLines p = [] then 0 else 1)
      + data.positions.length + data.educations.length
      + (if data.skills = [] then 0 else 1)) ∧
    (data.skills ≠ [] →
      (linkedinDataToTextChunks data).getLast? =
        some (("Compétences LinkedIn : ") ++ joinSep (", ") (data.skills.map Skill.name))) ∧
    (∀ t c, positionText ⟨t, c, none, none, none, none⟩ =
      ("Expérience professionnelle") ++ ("\n") ++ ("Poste : ") ++ t ++ ("\n") ++
        ("Entreprise : ") ++ c) ∧
    (∀ s, educationText ⟨s, none, none, none, none⟩ =
      ("Formation") ++ ("\n") ++ ("Établissement : ") ++ s) := by
  obtain ⟨prof, poss, edus, sks⟩ := data
  refine ⟨?_, ?_, ?_, ?_⟩
  · simp only [linkedinDataToTextChunks, foldl_append_map]
    cases prof with
    | none =>
        by_cases hs : sks = []
        · simp [hs, List.length_append]
        · simp [hs, List.length_append]
          omega
    | some p =>
        by_cases hp : profileLines p = [] <;> by_cases hs : sks = [] <;>
          simp [hp, hs, List.length_append] <;> omega
  · intro hsk
    simp only [linkedinDataToTextChunks, foldl_append_map]
    rw [if_neg hsk, List.getLast?_concat]
  · intro t c
    simp [positionText, optTruthy, joinSep, ← String.append_assoc]
  · intro s
    simp [educationText, optTruthy, joinSep, ← String.append_assoc]

/-- C8 witness: on a concrete skills-only input, the theorem yields
the single comma-joined skills chunk in last position. -/
theorem linkedinChunks_templating_spot :
    (linkedinDataToTextChunks ⟨none, [], [], [⟨("Python")⟩, ⟨("SQL")⟩]⟩).getLast? =
      some (("Compétences LinkedIn : ") ++
        joinSep (", ") ([⟨("Python")⟩, ⟨("SQL")⟩].map Skill.name)) :=
  (linkedinChunks_templating ⟨none, [], [], [⟨("Python")⟩, ⟨("SQL")⟩]⟩).2.1 (by decide)

/-! ### Build step claim -/

/-- C9 (code_bug evidence): build_knowledge_base fails with an
AttributeError on EVERY input — it reads linkedin_data.certifications
in its logging block, an attribute the LinkedInData dataclass does not
have — so the descriptive nothing-to-index error is unreachable and
even inputs that produce chunks abort. -/
theorem buildKnowledgeBase_always_attribute_error
    (cvChunks : List String) (li : LinkedInData) :
    buildKnowledgeBase cvChunks li = .error (.attributeError ("certifications")) := rfl

end ProfileChatbot
